import Mathlib

/-!
Verification development for the `my-redis` mini key-value server
(`src/src/main.rs`).  The connection layer (`Connection::read_frame`,
`Connection::parse_frame`, `Connection::write_frame`,
`Connection::write_decimal`) and the dispatch loop (`process`) are embedded
from the source.  The frame grammar (`Frame::check` / `Frame::parse`, the
`Frame` type itself and the line/decimal primitives) lives in the external
`mini_redis` crate, which is not part of the repository's sources; it is
modelled here from the specification's description of the wire format and of
the `check`/`parse` contract (§4.1, §4.2, §6), with one exception pinned by
the repository's own code: `Connection::write_decimal` takes a `u64` and
`write_frame` passes an `Integer` payload to it unchanged, so the `Integer`
payload is an unsigned 64-bit value in this embedding.

Bytes are modelled as natural numbers (the numeric value of each wire byte),
byte buffers as `List Nat`, and the socket as an explicit list of incoming
chunks, the end of that list standing for the peer closing the connection
(`read_buf` returning `0`).
-/

set_option autoImplicit false
set_option linter.unusedVariables false

namespace MyRedis

/-- Result of `mini_redis::frame::Error`: a frame-level failure is either
`Incomplete` (more bytes are needed) or another protocol error carrying a
message.  Modelled from the spec: "`Incomplete` if the buffer ends before a
full frame is found ... a protocol error if the bytes are structurally
invalid". -/
inductive FrameError where
  | Incomplete : FrameError
  | Other : String → FrameError
deriving DecidableEq

/-- The protocol-error value used for malformed numeric content. -/
def protocolErr : FrameError := .Other "protocol error; invalid frame format"

/-- The protocol-error value used for an unrecognized leading type byte. -/
def typeByteErr : FrameError := .Other "protocol error; invalid frame type byte"

/-- The wire-level value type.  Modelled from the spec's data model (§3):
`Simple`/`Error` carry the payload's text bytes, `Bulk` an arbitrary byte
string, `Array` a sequence of frames.  The `Integer` payload is an unsigned
64-bit value because `src/src/main.rs` passes it directly to
`write_decimal(val: u64)` (lines 95-97, 119). -/
inductive Frame where
  | Simple : List Nat → Frame
  | Error : List Nat → Frame
  | Integer : Nat → Frame
  | Bulk : List Nat → Frame
  | Null : Frame
  | Array : List Frame → Frame

/-- Modelled from the spec: `get_line` scans forward for a CR (byte 13)
immediately followed by LF (byte 10), returns the byte slice before it and
the bytes after the terminator; fails with `Incomplete` if no such
terminator is found before the buffer ends. -/
def getLine : List Nat → Except FrameError (List Nat × List Nat)
  | [] => .error .Incomplete
  | [_] => .error .Incomplete
  | a :: b :: rest =>
    if a = 13 ∧ b = 10 then .ok ([], rest)
    else
      match getLine (b :: rest) with
      | .ok (line, r) => .ok (a :: line, r)
      | .error e => .error e

/-- Accumulator loop for `digitsToNat`: consumes ASCII digit bytes
(48-57), failing on anything else. -/
def digitsToNatAux : Nat → List Nat → Option Nat
  | acc, [] => some acc
  | acc, d :: rest =>
    if 48 ≤ d ∧ d ≤ 57 then digitsToNatAux (acc * 10 + (d - 48)) rest else none

/-- Reads a nonempty run of ASCII digits as a natural number; `none` on an
empty line or any non-digit byte. -/
def digitsToNat : List Nat → Option Nat
  | [] => none
  | l => digitsToNatAux 0 l

/-- Modelled from the spec: the numeric step of `get_decimal` — the line's
bytes parsed as a base-10 integer into a `u64`, a protocol error on
non-numeric content (or a value that does not fit in 64 bits). -/
def lineToNat (line : List Nat) : Except FrameError Nat :=
  match digitsToNat line with
  | some n => if n < 2 ^ 64 then .ok n else .error protocolErr
  | none => .error protocolErr

/-- Modelled from the spec: `get_decimal` = `get_line` followed by the
numeric parse of the line. -/
def getDecimal (buf : List Nat) : Except FrameError (Nat × List Nat) :=
  match getLine buf with
  | .error e => .error e
  | .ok (line, rest) =>
    match lineToNat line with
    | .error e => .error e
    | .ok n => .ok (n, rest)

/-- Modelled from the spec: the body of a bulk frame of declared length `n`
— `n` raw bytes then a CRLF terminator.  `Incomplete` when fewer than
`n + 2` bytes remain, a protocol error when the terminator bytes are not
CRLF; on success returns the `n` data bytes and the bytes after the
terminator. -/
def readBulkBody (n : Nat) (r : List Nat) : Except FrameError (List Nat × List Nat) :=
  if r.length < n + 2 then .error .Incomplete
  else
    match r.drop n with
    | 13 :: 10 :: rest2 => .ok (r.take n, rest2)
    | _ => .error protocolErr

/-- Runs a buffer-consuming action `n` times in sequence, threading the
remaining buffer; used for the element scan of an `Array` frame in
`check`. -/
def iterateN (f : List Nat → Except FrameError (List Nat)) :
    Nat → List Nat → Except FrameError (List Nat)
  | 0, a => .ok a
  | n + 1, a =>
    match f a with
    | .ok a' => iterateN f n a'
    | .error e => .error e

/-- Runs a frame-producing action `n` times in sequence, collecting the
decoded frames; used for the element decode of an `Array` frame in
`parse`. -/
def iterCollect (p : List Nat → Except FrameError (Frame × List Nat)) :
    Nat → List Nat → Except FrameError (List Frame × List Nat)
  | 0, a => .ok ([], a)
  | n + 1, a =>
    match p a with
    | .error e => .error e
    | .ok (f, a') =>
      match iterCollect p n a' with
      | .error e => .error e
      | .ok (fs, r) => .ok (f :: fs, r)

/-- One syntactic layer of `Frame::check`, parametrized by the procedure
`rec` used for nested array elements.  Modelled from the spec's wire table
(§6): `+`/`-` are a line, `:` a decimal line, `$` either the literal `-1`
(Null) or a length line followed by that many raw bytes and CRLF, `*` a
count line followed by that many frames; an unrecognized leading byte is a
protocol error, running out of bytes is `Incomplete`. -/
def checkStep (rec : List Nat → Except FrameError (List Nat)) :
    List Nat → Except FrameError (List Nat)
  | [] => .error .Incomplete
  | b :: rest =>
    if b = 43 ∨ b = 45 then
      match getLine rest with
      | .ok (_, r) => .ok r
      | .error e => .error e
    else if b = 58 then
      match getDecimal rest with
      | .ok (_, r) => .ok r
      | .error e => .error e
    else if b = 36 then
      match getLine rest with
      | .error e => .error e
      | .ok (line, r) =>
        if line = [45, 49] then .ok r
        else
          match lineToNat line with
          | .error e => .error e
          | .ok n =>
            match readBulkBody n r with
            | .ok (_, r2) => .ok r2
            | .error e => .error e
    else if b = 42 then
      match getDecimal rest with
      | .error e => .error e
      | .ok (n, r) => iterateN rec n r
    else .error typeByteErr

/-- One syntactic layer of `Frame::parse`, over the same grammar as
`checkStep` but building the decoded `Frame`. -/
def parseStep (rec : List Nat → Except FrameError (Frame × List Nat)) :
    List Nat → Except FrameError (Frame × List Nat)
  | [] => .error .Incomplete
  | b :: rest =>
    if b = 43 ∨ b = 45 then
      match getLine rest with
      | .ok (line, r) => .ok (if b = 43 then (Frame.Simple line, r) else (Frame.Error line, r))
      | .error e => .error e
    else if b = 58 then
      match getDecimal rest with
      | .ok (n, r) => .ok (Frame.Integer n, r)
      | .error e => .error e
    else if b = 36 then
      match getLine rest with
      | .error e => .error e
      | .ok (line, r) =>
        if line = [45, 49] then .ok (Frame.Null, r)
        else
          match lineToNat line with
          | .error e => .error e
          | .ok n =>
            match readBulkBody n r with
            | .ok (data, r2) => .ok (Frame.Bulk data, r2)
            | .error e => .error e
    else if b = 42 then
      match getDecimal rest with
      | .error e => .error e
      | .ok (n, r) =>
        match iterCollect rec n r with
        | .error e => .error e
        | .ok (fs, r2) => .ok (Frame.Array fs, r2)
    else .error typeByteErr

/-- Fueled completeness scan; the fuel only bounds array-nesting recursion
and is instantiated at more than the buffer's length, which every frame
strictly shrinks. -/
def checkAux : Nat → List Nat → Except FrameError (List Nat)
  | 0, _ => .error .Incomplete
  | fuel + 1, buf => checkStep (fun b => checkAux fuel b) buf

/-- Fueled decoder over the same grammar as `checkAux`. -/
def parseAux : Nat → List Nat → Except FrameError (Frame × List Nat)
  | 0, _ => .error .Incomplete
  | fuel + 1, buf => parseStep (fun b => parseAux fuel b) buf

/-- `Frame::check`: scans the buffer for one complete frame without
consuming it, reporting `Incomplete` or a protocol error; on success the
returned list is the unconsumed remainder (the cursor's final position is
the number of bytes before it). -/
def Frame.check (buf : List Nat) : Except FrameError (List Nat) :=
  checkAux (buf.length + 1) buf

/-- `Frame::parse`: decodes one frame from the front of the buffer,
returning the decoded value and the unconsumed remainder. -/
def Frame.parse (buf : List Nat) : Except FrameError (Frame × List Nat) :=
  parseAux (buf.length + 1) buf

/-- ASCII bytes of a string literal (all payloads used here are ASCII, for
which the code point equals the UTF-8 byte). -/
def strBytes (s : String) : List Nat := s.data.map Char.toNat

/-- An error returned by `Connection::read_frame` / `parse_frame`
(`mini_redis::Result`'s error side as it is used by `src/src/main.rs`):
either a propagated frame error or the `"connection reset by peer"` error
built at line 49. -/
inductive ConnError where
  | frame : FrameError → ConnError
  | connectionResetByPeer : ConnError
deriving DecidableEq

/-- `Connection::parse_frame` (src/src/main.rs lines 55-81): run
`Frame::check` over the buffer; on success take the checked byte length
`len`, re-run `Frame::parse` from position 0 and discard the first `len`
bytes of the buffer (`self.buffer.advance(len)`); map `Incomplete` to
`Ok(None)` and propagate every other error, leaving the buffer untouched.
The returned pair is (the call's result, the buffer afterwards). -/
def Connection.parseFrame (buffer : List Nat) :
    Except ConnError (Option Frame) × List Nat :=
  match Frame.check buffer with
  | .ok rest =>
    let len := buffer.length - rest.length
    match Frame.parse buffer with
    | .ok (frame, _) => (.ok (some frame), buffer.drop len)
    | .error e => (.error (.frame e), buffer)
  | .error .Incomplete => (.ok none, buffer)
  | .error (.Other s) => (.error (.frame (.Other s)), buffer)

/-- `Connection::read_frame` (src/src/main.rs lines 28-53): loop parsing
the accumulated buffer; when the parse needs more data, append the next
chunk read from the socket, an exhausted chunk list standing for
`read_buf` returning `0` (peer closed) — at which point an empty buffer is
a clean end of stream (`Ok(None)`) and a nonempty one is
`Err("connection reset by peer")`. -/
def Connection.readFrame (buffer : List Nat) (chunks : List (List Nat)) :
    Except ConnError (Option Frame) × List Nat :=
  match Connection.parseFrame buffer with
  | (.ok (some frame), buf') => (.ok (some frame), buf')
  | (.error e, buf') => (.error e, buf')
  | (.ok none, buf') =>
    match chunks with
    | [] =>
      if buf'.isEmpty then (.ok none, buf')
      else (.error .connectionResetByPeer, buf')
    | c :: cs => Connection.readFrame (buf' ++ c) cs

/-- ASCII decimal digits of a natural number, most significant first
(fuel-structural so that it reduces in the kernel). -/
def natDecimalAux : Nat → Nat → List Nat
  | 0, _ => []
  | fuel + 1, n =>
    if n < 10 then [48 + n] else natDecimalAux fuel (n / 10) ++ [48 + n % 10]

/-- ASCII decimal digits of a natural number (the bytes `write!` would
produce for a `u64`). -/
def natDecimal (n : Nat) : List Nat := natDecimalAux (n + 1) n

/-- How a `write_frame` call ends: normally, with an I/O error returned to
the caller, or by panicking (`unimplemented!`). -/
inductive WriteResult where
  | ok : WriteResult
  | ioError : WriteResult
  | panicked : WriteResult
deriving DecidableEq

/-- Observable effect of one `write_frame` call: the bytes handed to the
stream in order, whether `flush` was reached, and how the call ended. -/
structure WriteOutcome where
  bytes : List Nat
  flushed : Bool
  result : WriteResult
deriving DecidableEq

/-- `Connection::write_decimal` (src/src/main.rs lines 119-132): format the
value into a fixed 12-byte scratch buffer with `write!` — which fails with
an I/O error when the decimal representation does not fit in 12 bytes —
then write the formatted digits and CRLF.  On success, the bytes written
to the stream; on failure, an error before anything reaches the stream. -/
def Connection.writeDecimal (val : Nat) : Except Unit (List Nat) :=
  if (natDecimal val).length ≤ 12 then .ok (natDecimal val ++ [13, 10])
  else .error ()

/-- `Connection::write_frame` (src/src/main.rs lines 83-117): serialize one
frame variant to the stream (`+`/`-` line, `:` decimal, `$-1\r\n` for Null,
`$` length-prefixed bulk, `unimplemented!` panic for Array), then
`let _ = self.stream.flush().await;` — the flush result is discarded — and
return `Ok(())`.  `flushFails` says whether the flush would fail; it is a
parameter precisely so that theorems can state that the outcome does not
depend on it. -/
def Connection.writeFrame (frame : Frame) (flushFails : Bool) : WriteOutcome :=
  match frame with
  | .Simple val => ⟨43 :: (val ++ [13, 10]), true, .ok⟩
  | .Error val => ⟨45 :: (val ++ [13, 10]), true, .ok⟩
  | .Integer val =>
    match Connection.writeDecimal val with
    | .ok d => ⟨58 :: d, true, .ok⟩
    | .error _ => ⟨[58], false, .ioError⟩
  | .Null => ⟨[36, 45, 49, 13, 10], true, .ok⟩
  | .Bulk val =>
    match Connection.writeDecimal val.length with
    | .ok d => ⟨36 :: (d ++ val ++ [13, 10]), true, .ok⟩
    | .error _ => ⟨[36], false, .ioError⟩
  | .Array _ => ⟨[], false, .panicked⟩

/-- The shared key-value store (spec §3: "a mapping from string keys to
binary values"), as a function from keys to optional values. -/
def Store := String → Option (List Nat)

/-- `HashMap::insert` as used at src/src/main.rs line 161. -/
def storeInsert (k : String) (v : List Nat) (db : Store) : Store :=
  fun k' => if k' = k then some v else db k'

/-- A decoded command (`mini_redis::Command` as consumed by `process`):
`Get`/`Set` with their arguments, or any other command (which `process`
does not implement). -/
inductive Command where
  | set : String → List Nat → Command
  | get : String → Command
  | other : Command

/-- The dispatch match inside `process` (src/src/main.rs lines 158-173):
`Set` inserts into the store and replies `Simple("OK")`; `Get` replies
`Bulk(value)` when the key is present and `Null` otherwise; any other
command panics (modelled as `none`). -/
def processDispatch (cmd : Command) (db : Store) : Option (Frame × Store) :=
  match cmd with
  | .set k v => some (Frame.Simple (strBytes "OK"), storeInsert k v db)
  | .get k =>
    match db k with
    | some v => some (Frame.Bulk v, db)
    | none => some (Frame.Null, db)
  | .other => none

example : getLine [79, 75, 13, 10, 99] = .ok ([79, 75], [99]) := rfl
example : Frame.parse (strBytes "+OK\r\n") = .ok (Frame.Simple [79, 75], []) := rfl
example : Frame.parse (strBytes ":42\r\n") = .ok (Frame.Integer 42, []) := rfl
example : Frame.parse (strBytes "$-1\r\n") = .ok (Frame.Null, []) := rfl
example : Frame.parse (strBytes "$2\r\nhi\r\n") = .ok (Frame.Bulk [104, 105], []) := rfl
example : Frame.parse (strBytes "*1\r\n+OK\r\n") =
    .ok (Frame.Array [Frame.Simple [79, 75]], []) := rfl
example : Frame.check (strBytes "*2\r\n$3\r\nget\r\n$5\r\nhello\r\n") = .ok [] := rfl
example : Frame.check [43] = .error .Incomplete := rfl
example : Frame.check [64] = .error typeByteErr := rfl
example : Frame.parse (strBytes ":-42\r\n") = .error protocolErr := rfl
example : natDecimal 42 = [52, 50] := rfl
example : natDecimal 0 = [48] := rfl
example : Connection.writeDecimal 42 = .ok [52, 50, 13, 10] := rfl
example : Connection.writeFrame (Frame.Integer 42) false =
    ⟨strBytes ":42\r\n", true, .ok⟩ := rfl
example : Connection.writeFrame (Frame.Bulk [104, 105]) false =
    ⟨strBytes "$2\r\nhi\r\n", true, .ok⟩ := rfl
example : Connection.writeFrame Frame.Null true =
    ⟨strBytes "$-1\r\n", true, .ok⟩ := rfl
example : Connection.readFrame [] [] = (.ok none, []) := rfl
example : Connection.readFrame [43] [] = (.error .connectionResetByPeer, [43]) := rfl
example : Connection.readFrame [] [strBytes "+OK", strBytes "\r\n"] =
    (.ok (some (Frame.Simple [79, 75])), []) := rfl
example : Connection.parseFrame (strBytes "+OK\r\n+NEXT") =
    (.ok (some (Frame.Simple [79, 75])), strBytes "+NEXT") := rfl

/-- A successful `getLine` splits its input as the line, the CRLF
terminator, and the returned remainder. -/
theorem getLine_append :
    ∀ (buf line r : List Nat), getLine buf = .ok (line, r) →
      line ++ 13 :: 10 :: r = buf := by
  intro buf
  induction buf with
  | nil => intro line r h; simp [getLine] at h
  | cons a tail ih =>
    intro line r h
    cases tail with
    | nil => simp [getLine] at h
    | cons b rest =>
      by_cases hab : a = 13 ∧ b = 10
      · simp only [getLine, if_pos hab] at h
        obtain ⟨h1, h2⟩ := Prod.mk.injEq .. ▸ Except.ok.inj h
        subst h1; subst h2
        simp [hab.1, hab.2]
      · simp only [getLine, if_neg hab] at h
        cases hrec : getLine (b :: rest) with
        | error e => rw [hrec] at h; exact absurd h (by simp)
        | ok p =>
          obtain ⟨line', r'⟩ := p
          rw [hrec] at h
          obtain ⟨h1, h2⟩ := Prod.mk.injEq .. ▸ Except.ok.inj h
          subst h1; subst h2
          simpa using congrArg (a :: ·) (ih line' r' hrec)

/-- A successful `getDecimal` consumes an initial segment of its input. -/
theorem getDecimal_consumes (buf : List Nat) (n : Nat) (rest : List Nat)
    (h : getDecimal buf = .ok (n, rest)) : ∃ p, p ++ rest = buf := by
  cases hl : getLine buf with
  | error e => simp [getDecimal, hl] at h
  | ok q =>
    obtain ⟨line, r⟩ := q
    cases hn : lineToNat line with
    | error e => simp [getDecimal, hl, hn] at h
    | ok m =>
      simp only [getDecimal, hl, hn] at h
      obtain ⟨h1, h2⟩ := Prod.mk.injEq .. ▸ Except.ok.inj h
      subst h2
      exact ⟨line ++ [13, 10], by simpa using getLine_append buf line r hl⟩

/-- A successful `readBulkBody` splits its input as the data bytes, the
CRLF terminator, and the returned remainder. -/
theorem readBulkBody_append (n : Nat) (r data r2 : List Nat)
    (h : readBulkBody n r = .ok (data, r2)) : data ++ 13 :: 10 :: r2 = r := by
  unfold readBulkBody at h
  split at h
  · exact absurd h (by simp)
  · split at h
    · rename_i hlen rest2 hd
      obtain ⟨h1, h2⟩ := Prod.mk.injEq .. ▸ Except.ok.inj h
      subst h1; subst h2
      calc r.take n ++ 13 :: 10 :: rest2 = r.take n ++ r.drop n := by rw [hd]
        _ = r := List.take_append_drop n r
    · exact absurd h (by simp)

/-- `iterateN` consumes an initial segment whenever its step does. -/
theorem iterateN_consumes (f : List Nat → Except FrameError (List Nat))
    (H : ∀ b r, f b = .ok r → ∃ p, p ++ r = b) :
    ∀ (n : Nat) (a r : List Nat), iterateN f n a = .ok r → ∃ p, p ++ r = a := by
  intro n
  induction n with
  | zero =>
    intro a r h
    exact ⟨[], by simpa using (Except.ok.inj h).symm⟩
  | succ m ih =>
    intro a r h
    simp only [iterateN] at h
    cases hf : f a with
    | error e => rw [hf] at h; exact absurd h (by simp)
    | ok a' =>
      rw [hf] at h
      obtain ⟨p1, hp1⟩ := H a a' hf
      obtain ⟨p2, hp2⟩ := ih a' r h
      exact ⟨p1 ++ p2, by rw [List.append_assoc, hp2, hp1]⟩

/-- One `checkStep` layer consumes an initial segment of the buffer
whenever the nested-element procedure does. -/
theorem checkStep_consumes (rec : List Nat → Except FrameError (List Nat))
    (H : ∀ b r, rec b = .ok r → ∃ p, p ++ r = b) :
    ∀ (buf rest : List Nat), checkStep rec buf = .ok rest → ∃ p, p ++ rest = buf := by
  intro buf rest h
  cases buf with
  | nil => simp [checkStep] at h
  | cons b tail =>
    simp only [checkStep] at h
    by_cases h1 : b = 43 ∨ b = 45
    · rw [if_pos h1] at h
      cases hl : getLine tail with
      | error e => simp [hl] at h
      | ok q =>
        obtain ⟨line, r⟩ := q
        simp only [hl] at h
        cases Except.ok.inj h
        exact ⟨b :: (line ++ [13, 10]), by simpa using getLine_append tail line rest hl⟩
    · rw [if_neg h1] at h
      by_cases h2 : b = 58
      · rw [if_pos h2] at h
        cases hd : getDecimal tail with
        | error e => simp [hd] at h
        | ok q =>
          obtain ⟨n, r⟩ := q
          simp only [hd] at h
          cases Except.ok.inj h
          obtain ⟨p, hp⟩ := getDecimal_consumes tail n rest hd
          exact ⟨b :: p, by simpa using hp⟩
      · rw [if_neg h2] at h
        by_cases h3 : b = 36
        · rw [if_pos h3] at h
          cases hl : getLine tail with
          | error e => simp [hl] at h
          | ok q =>
            obtain ⟨line, r⟩ := q
            simp only [hl] at h
            by_cases hneg : line = [45, 49]
            · rw [if_pos hneg] at h
              cases Except.ok.inj h
              exact ⟨b :: (line ++ [13, 10]),
                by simpa using getLine_append tail line rest hl⟩
            · rw [if_neg hneg] at h
              cases hn : lineToNat line with
              | error e => simp [hn] at h
              | ok n =>
                simp only [hn] at h
                cases hb : readBulkBody n r with
                | error e => simp [hb] at h
                | ok q2 =>
                  obtain ⟨data, r2⟩ := q2
                  simp only [hb] at h
                  cases Except.ok.inj h
                  refine ⟨b :: (line ++ [13, 10] ++ (data ++ [13, 10])), ?_⟩
                  have hr := readBulkBody_append n r data rest hb
                  have hgl := getLine_append tail line r hl
                  rw [← hr] at hgl
                  simpa [List.append_assoc] using congrArg (b :: ·) hgl
        · rw [if_neg h3] at h
          by_cases h4 : b = 42
          · rw [if_pos h4] at h
            cases hd : getDecimal tail with
            | error e => simp [hd] at h
            | ok q =>
              obtain ⟨n, r⟩ := q
              simp only [hd] at h
              obtain ⟨p1, hp1⟩ := getDecimal_consumes tail n r hd
              obtain ⟨p2, hp2⟩ := iterateN_consumes rec H n r rest h
              exact ⟨b :: (p1 ++ p2), by
                simp only [List.cons_append, List.append_assoc]
                rw [hp2, hp1]⟩
          · rw [if_neg h4] at h
            exact absurd h (by simp)

/-- `checkAux` consumes an initial segment of the buffer: the returned
remainder is a suffix, whatever the fuel. -/
theorem checkAux_consumes :
    ∀ (fuel : Nat) (buf rest : List Nat), checkAux fuel buf = .ok rest →
      ∃ p, p ++ rest = buf := by
  intro fuel
  induction fuel with
  | zero => intro buf rest h; simp [checkAux] at h
  | succ m ih =>
    intro buf rest h
    exact checkStep_consumes (fun b => checkAux m b) (fun b r hb => ih b r hb) buf rest h

/-- `Frame::check` consumes an initial segment of the buffer. -/
theorem check_consumes (buf rest : List Nat) (h : Frame.check buf = .ok rest) :
    ∃ p, p ++ rest = buf :=
  checkAux_consumes (buf.length + 1) buf rest h

/-- When the element-level scans agree, a successful `iterateN` scan is
matched by an `iterCollect` decode over the same bytes. -/
theorem iterate_agree (c : List Nat → Except FrameError (List Nat))
    (p : List Nat → Except FrameError (Frame × List Nat))
    (H : ∀ b r, c b = .ok r → ∃ f, p b = .ok (f, r)) :
    ∀ (n : Nat) (a r : List Nat), iterateN c n a = .ok r →
      ∃ fs, iterCollect p n a = .ok (fs, r) := by
  intro n
  induction n with
  | zero =>
    intro a r h
    cases Except.ok.inj h
    exact ⟨[], rfl⟩
  | succ m ih =>
    intro a r h
    simp only [iterateN] at h
    cases hc : c a with
    | error e => simp [hc] at h
    | ok a' =>
      simp only [hc] at h
      obtain ⟨f, hf⟩ := H a a' hc
      obtain ⟨fs, hfs⟩ := ih a' r h
      exact ⟨f :: fs, by simp [iterCollect, hf, hfs]⟩

/-- One layer of agreement between the completeness scan and the decoder:
whatever `checkStep` accepts, `parseStep` decodes, ending at the same
remainder. -/
theorem step_agree (c : List Nat → Except FrameError (List Nat))
    (p : List Nat → Except FrameError (Frame × List Nat))
    (H : ∀ b r, c b = .ok r → ∃ f, p b = .ok (f, r)) :
    ∀ (buf rest : List Nat), checkStep c buf = .ok rest →
      ∃ f, parseStep p buf = .ok (f, rest) := by
  intro buf rest h
  cases buf with
  | nil => simp [checkStep] at h
  | cons b tail =>
    by_cases h1 : b = 43 ∨ b = 45
    · cases hl : getLine tail with
      | error e =>
        cases h1 with
        | inl hb => subst hb; simp [checkStep, hl] at h
        | inr hb => subst hb; simp [checkStep, hl] at h
      | ok q =>
        obtain ⟨line, r⟩ := q
        cases h1 with
        | inl hb =>
          subst hb
          simp [checkStep, hl] at h
          exact ⟨Frame.Simple line, by simp [parseStep, hl, h]⟩
        | inr hb =>
          subst hb
          simp [checkStep, hl] at h
          exact ⟨Frame.Error line, by simp [parseStep, hl, h]⟩
    · by_cases h2 : b = 58
      · subst h2
        cases hd : getDecimal tail with
        | error e => simp [checkStep, hd] at h
        | ok q =>
          obtain ⟨n, r⟩ := q
          simp [checkStep, hd] at h
          exact ⟨Frame.Integer n, by simp [parseStep, hd, h]⟩
      · by_cases h3 : b = 36
        · subst h3
          cases hl : getLine tail with
          | error e => simp [checkStep, hl] at h
          | ok q =>
            obtain ⟨line, r⟩ := q
            by_cases hneg : line = [45, 49]
            · subst hneg
              simp [checkStep, hl] at h
              exact ⟨Frame.Null, by simp [parseStep, hl, h]⟩
            · cases hn : lineToNat line with
              | error e => simp [checkStep, hl, hneg, hn] at h
              | ok n =>
                simp only [checkStep] at h
                simp only [hl] at h
                rw [if_neg (by simp)] at h
                rw [if_neg hneg] at h
                simp only [hn] at h
                cases hb : readBulkBody n r with
                | error e => simp [hb] at h
                | ok q2 =>
                  obtain ⟨data, r2⟩ := q2
                  simp only [hb] at h
                  cases Except.ok.inj h
                  exact ⟨Frame.Bulk data, by simp [parseStep, hl, hneg, hn, hb]⟩
        · by_cases h4 : b = 42
          · subst h4
            cases hd : getDecimal tail with
            | error e => simp [checkStep, hd] at h
            | ok q =>
              obtain ⟨n, r⟩ := q
              simp only [checkStep] at h
              simp only [hd] at h
              rw [if_neg (by simp)] at h
              obtain ⟨fs, hfs⟩ := iterate_agree c p H n r rest h
              exact ⟨Frame.Array fs, by simp [parseStep, hd, hfs]⟩
          · simp [checkStep, h1, h2, h3, h4] at h

/-- Fuel-generic agreement of `checkAux` and `parseAux`: a buffer the scan
accepts decodes to some frame with the same remainder. -/
theorem aux_agree :
    ∀ (fuel : Nat) (buf rest : List Nat), checkAux fuel buf = .ok rest →
      ∃ f, parseAux fuel buf = .ok (f, rest) := by
  intro fuel
  induction fuel with
  | zero => intro buf rest h; simp [checkAux] at h
  | succ m ih =>
    intro buf rest h
    exact step_agree (fun b => checkAux m b) (fun b => parseAux m b)
      (fun b r hb => ih b r hb) buf rest h

/-- Whatever `Frame::check` accepts, `Frame::parse` decodes, with the same
remainder. -/
theorem check_parse_agree (buf rest : List Nat) (h : Frame.check buf = .ok rest) :
    ∃ f, Frame.parse buf = .ok (f, rest) :=
  aux_agree (buf.length + 1) buf rest h

/-- On a buffer whose front `Frame::check` accepts, `parse_frame` decodes
the frame and drops exactly the checked bytes from the buffer. -/
theorem parseFrame_check_ok (buf rest : List Nat) (h : Frame.check buf = .ok rest) :
    ∃ f, Frame.parse buf = .ok (f, rest) ∧
      Connection.parseFrame buf = (.ok (some f), rest) := by
  obtain ⟨f, hp⟩ := check_parse_agree buf rest h
  obtain ⟨p, hpre⟩ := check_consumes buf rest h
  refine ⟨f, hp, ?_⟩
  simp only [Connection.parseFrame, h, hp]
  subst hpre
  simp

/-- When `Frame::check` reports `Incomplete`, `parse_frame` returns
`Ok(None)` with the buffer untouched. -/
theorem parseFrame_incomplete (buf : List Nat)
    (h : Frame.check buf = .error .Incomplete) :
    Connection.parseFrame buf = (.ok none, buf) := by
  simp [Connection.parseFrame, h]

/-- When `Frame::check` reports a protocol error, `parse_frame` returns
that error with the buffer untouched. -/
theorem parseFrame_other_error (buf : List Nat) (s : String)
    (h : Frame.check buf = .error (.Other s)) :
    Connection.parseFrame buf = (.error (.frame (.Other s)), buf) := by
  simp [Connection.parseFrame, h]

/-- Exhaustive description of `parse_frame`'s possible outcomes. -/
theorem parseFrame_cases (buf : List Nat) :
    (∃ f rest, Frame.check buf = .ok rest ∧
      Connection.parseFrame buf = (.ok (some f), rest)) ∨
    (Frame.check buf = .error .Incomplete ∧
      Connection.parseFrame buf = (.ok none, buf)) ∨
    (∃ s, Frame.check buf = .error (.Other s) ∧
      Connection.parseFrame buf = (.error (.frame (.Other s)), buf)) := by
  cases hc : Frame.check buf with
  | ok rest =>
    obtain ⟨f, _, hp⟩ := parseFrame_check_ok buf rest hc
    exact .inl ⟨f, rest, rfl, hp⟩
  | error e =>
    cases e with
    | Incomplete => exact .inr (.inl ⟨rfl, parseFrame_incomplete buf hc⟩)
    | Other s => exact .inr (.inr ⟨s, rfl, parseFrame_other_error buf s hc⟩)

/-- A value at least `10 ^ k` has more than `k` decimal digits, whatever
the fuel, provided the fuel covers the value. -/
theorem natDecimalAux_length :
    ∀ (fuel n k : Nat), n < fuel → 10 ^ k ≤ n → k + 1 ≤ (natDecimalAux fuel n).length := by
  intro fuel
  induction fuel with
  | zero => intro n k h1 h2; omega
  | succ m ih =>
    intro n k h1 h2
    by_cases hn : n < 10
    · have hk : k = 0 := by
        by_contra hk0
        have h10 : 10 ≤ 10 ^ k :=
          calc 10 = 10 ^ 1 := (pow_one 10).symm
          _ ≤ 10 ^ k := Nat.pow_le_pow_right (by omega) (by omega)
        omega
      subst hk
      simp [natDecimalAux, if_pos hn]
    · have hrec : natDecimalAux (m + 1) n = natDecimalAux m (n / 10) ++ [48 + n % 10] := by
        simp [natDecimalAux, if_neg hn]
      rw [hrec, List.length_append]
      cases k with
      | zero => simp
      | succ k' =>
        have hdiv_lt : n / 10 < m := by
          have := Nat.div_lt_self (show 0 < n by omega) (show 1 < 10 by omega)
          omega
        have hpow : 10 ^ k' ≤ n / 10 := by
          rw [Nat.le_div_iff_mul_le (show 0 < 10 by omega)]
          calc 10 ^ k' * 10 = 10 ^ (k' + 1) := (pow_succ 10 k').symm
          _ ≤ n := h2
        have := ih (n / 10) k' hdiv_lt hpow
        simp only [List.length_cons, List.length_nil]
        omega

/-- A value at least `10 ^ 12` needs at least 13 decimal digit bytes. -/
theorem natDecimal_length_big (n : Nat) (h : 10 ^ 12 ≤ n) :
    13 ≤ (natDecimal n).length :=
  natDecimalAux_length (n + 1) n 12 (Nat.lt_succ_self n) h

/-- `write_decimal` fails on any value of 13 or more decimal digits: the
formatted text does not fit the 12-byte scratch buffer. -/
theorem writeDecimal_overflow (val : Nat) (h : 10 ^ 12 ≤ val) :
    Connection.writeDecimal val = .error () := by
  have h13 := natDecimal_length_big val h
  simp only [Connection.writeDecimal]
  rw [if_neg (by omega)]

/-- A Bulk frame whose length overflows `write_decimal` makes
`write_frame` return an I/O error after only the `$` byte. -/
theorem writeFrame_bulk_overflow (b : List Nat) (ff : Bool)
    (h : 10 ^ 12 ≤ b.length) :
    Connection.writeFrame (Frame.Bulk b) ff = ⟨[36], false, .ioError⟩ := by
  simp [Connection.writeFrame, writeDecimal_overflow b.length h]

/-- `read_frame` returns as soon as `parse_frame` produces a frame. -/
theorem readFrame_of_some (buffer : List Nat) (chunks : List (List Nat))
    (f : Frame) (rest : List Nat)
    (h : Connection.parseFrame buffer = (.ok (some f), rest)) :
    Connection.readFrame buffer chunks = (.ok (some f), rest) := by
  rw [Connection.readFrame.eq_def, h]

/-- `read_frame` propagates a `parse_frame` error immediately. -/
theorem readFrame_of_error (buffer : List Nat) (chunks : List (List Nat))
    (e : ConnError) (buf' : List Nat)
    (h : Connection.parseFrame buffer = (.error e, buf')) :
    Connection.readFrame buffer chunks = (.error e, buf') := by
  rw [Connection.readFrame.eq_def, h]

/-- With no more socket data, `read_frame` on an unparseable buffer ends
the stream cleanly or reports a reset, by buffer emptiness. -/
theorem readFrame_of_none_nil (buffer : List Nat) (buf' : List Nat)
    (h : Connection.parseFrame buffer = (.ok none, buf')) :
    Connection.readFrame buffer [] =
      if buf'.isEmpty then (.ok none, buf')
      else (.error .connectionResetByPeer, buf') := by
  rw [Connection.readFrame.eq_def, h]

/-- With another chunk available, `read_frame` on an unparseable buffer
appends the chunk and retries. -/
theorem readFrame_of_none_cons (buffer : List Nat) (c : List Nat)
    (cs : List (List Nat)) (buf' : List Nat)
    (h : Connection.parseFrame buffer = (.ok none, buf')) :
    Connection.readFrame buffer (c :: cs) = Connection.readFrame (buf' ++ c) cs := by
  rw [Connection.readFrame.eq_def, h]

/-- C1: when the socket read returns zero bytes (here: the chunk list is
exhausted) while the buffer holds at most a partial frame, `read_frame`
returns a clean end-of-stream (`Ok(None)`) if the accumulation buffer is
empty, and the "connection reset by peer" error if the buffer still holds
bytes of a partial frame. -/
theorem read_frame_peer_close_clean_or_reset (buffer : List Nat)
    (h : Frame.check buffer = .error .Incomplete) :
    (buffer = [] → Connection.readFrame buffer [] = (.ok none, [])) ∧
    (buffer ≠ [] →
      Connection.readFrame buffer [] = (.error .connectionResetByPeer, buffer)) := by
  have hp := parseFrame_incomplete buffer h
  have heq := readFrame_of_none_nil buffer buffer hp
  constructor
  · intro hb
    subst hb
    simpa using heq
  · intro hb
    rw [heq, if_neg (by simpa [List.isEmpty_iff] using hb)]

/-- Witness for C1: a wholly unsent stream closes cleanly, while a lone
`+` byte (a partial frame) is reported as a reset. -/
theorem read_frame_peer_close_clean_or_reset_witness :
    Connection.readFrame [] [] = (.ok none, []) ∧
    Connection.readFrame [43] [] = (.error .connectionResetByPeer, [43]) :=
  ⟨(read_frame_peer_close_clean_or_reset [] rfl).1 rfl,
   (read_frame_peer_close_clean_or_reset [43] rfl).2 (by simp)⟩

/-- C2: dispatch maps `Set{key, value}` to a store insert with a
`Simple("OK")` reply, and `Get{key}` to `Bulk(v)` when the store maps the
key to `v` and to `Null` when it does not (src/src/main.rs lines
157-173). -/
theorem process_dispatch_set_get (k : String) (v : List Nat) (db : Store) :
    processDispatch (.set k v) db =
      some (Frame.Simple (strBytes "OK"), storeInsert k v db) ∧
    (∀ w, db k = some w → processDispatch (.get k) db = some (Frame.Bulk w, db)) ∧
    (db k = none → processDispatch (.get k) db = some (Frame.Null, db)) := by
  refine ⟨rfl, ?_, ?_⟩
  · intro w hw
    simp [processDispatch, hw]
  · intro hw
    simp [processDispatch, hw]

/-- Witness for C2: setting then getting "hello" returns its value, and
getting a missing key returns Null. -/
theorem process_dispatch_set_get_witness :
    processDispatch (.set "hello" (strBytes "world")) (fun _ => none) =
      some (Frame.Simple (strBytes "OK"),
        storeInsert "hello" (strBytes "world") (fun _ => none)) ∧
    processDispatch (.get "hello")
        (storeInsert "hello" (strBytes "world") (fun _ => none)) =
      some (Frame.Bulk (strBytes "world"),
        storeInsert "hello" (strBytes "world") (fun _ => none)) ∧
    processDispatch (.get "missing") (fun _ => none) =
      some (Frame.Null, fun _ => none) :=
  ⟨(process_dispatch_set_get "hello" (strBytes "world") (fun _ => none)).1,
   (process_dispatch_set_get "hello" (strBytes "world")
      (storeInsert "hello" (strBytes "world") (fun _ => none))).2.1
      (strBytes "world") rfl,
   (process_dispatch_set_get "missing" [] (fun _ => none)).2.2 rfl⟩

/-- C3: on a successful check, `parse_frame` decodes a frame and advances
the buffer by exactly the byte length `Frame::check` consumed, leaving the
following bytes (the checked remainder) intact and in order; `parse`
re-walks the same bytes from position 0 and ends at the same remainder. -/
theorem parse_frame_advances_checked_length (buffer rest : List Nat)
    (h : Frame.check buffer = .ok rest) :
    ∃ f, Frame.parse buffer = .ok (f, rest) ∧
      Connection.parseFrame buffer = (.ok (some f), rest) ∧
      buffer.take (buffer.length - rest.length) ++ rest = buffer := by
  obtain ⟨f, hp, hpf⟩ := parseFrame_check_ok buffer rest h
  obtain ⟨p, hpre⟩ := check_consumes buffer rest h
  refine ⟨f, hp, hpf, ?_⟩
  subst hpre
  simp

/-- Witness for C3: parsing `+\r\n` followed by a stray byte consumes the
three checked bytes and leaves the stray byte. -/
theorem parse_frame_advances_checked_length_witness :
    ∃ f, Frame.parse [43, 13, 10, 99] = .ok (f, [99]) ∧
      Connection.parseFrame [43, 13, 10, 99] = (.ok (some f), [99]) ∧
      [43, 13, 10, 99].take ([43, 13, 10, 99].length - [99].length) ++ [99] =
        [43, 13, 10, 99] :=
  parse_frame_advances_checked_length [43, 13, 10, 99] [99] rfl

/-- C4: an `Incomplete` check makes `parse_frame` return `Ok(None)` —
causing `read_frame` to append the next socket chunk and retry — the
`Incomplete` condition is never surfaced as an error by `read_frame`, and
every other check error is propagated to `read_frame`'s caller. -/
theorem incomplete_triggers_retry_never_surfaces :
    (∀ buf, Frame.check buf = .error .Incomplete →
      Connection.parseFrame buf = (.ok none, buf)) ∧
    (∀ buf (c : List Nat) cs, Frame.check buf = .error .Incomplete →
      Connection.readFrame buf (c :: cs) = Connection.readFrame (buf ++ c) cs) ∧
    (∀ buf chunks, (Connection.readFrame buf chunks).1 ≠ .error (.frame .Incomplete)) ∧
    (∀ buf chunks s, Frame.check buf = .error (.Other s) →
      Connection.readFrame buf chunks = (.error (.frame (.Other s)), buf)) := by
  refine ⟨fun buf h => parseFrame_incomplete buf h, ?_, ?_, ?_⟩
  · intro buf c cs h
    exact readFrame_of_none_cons buf c cs buf (parseFrame_incomplete buf h)
  · intro buf chunks
    induction chunks generalizing buf with
    | nil =>
      rcases parseFrame_cases buf with ⟨f, rest, _, hp⟩ | ⟨_, hp⟩ | ⟨s, _, hp⟩
      · rw [readFrame_of_some buf [] f rest hp]
        simp
      · rw [readFrame_of_none_nil buf buf hp]
        by_cases hb : buf.isEmpty <;> simp [hb]
      · rw [readFrame_of_error buf [] _ buf hp]
        simp
    | cons c cs ih =>
      rcases parseFrame_cases buf with ⟨f, rest, _, hp⟩ | ⟨_, hp⟩ | ⟨s, _, hp⟩
      · rw [readFrame_of_some buf (c :: cs) f rest hp]
        simp
      · rw [readFrame_of_none_cons buf c cs buf hp]
        exact ih (buf ++ c)
      · rw [readFrame_of_error buf (c :: cs) _ buf hp]
        simp
  · intro buf chunks s h
    exact readFrame_of_error buf chunks _ buf (parseFrame_other_error buf s h)

/-- Witness for C4: a lone `+` byte retries with the next chunk, and a bad
type byte's protocol error is propagated by `read_frame`. -/
theorem incomplete_triggers_retry_never_surfaces_witness :
    Connection.parseFrame [43] = (.ok none, [43]) ∧
    Connection.readFrame [43] [[13, 10]] = Connection.readFrame [43, 13, 10] [] ∧
    (Connection.readFrame [64] []).1 ≠ .error (.frame .Incomplete) ∧
    Connection.readFrame [64] [] =
      (.error (.frame (.Other "protocol error; invalid frame type byte")), [64]) :=
  ⟨incomplete_triggers_retry_never_surfaces.1 [43] rfl,
   by simpa using incomplete_triggers_retry_never_surfaces.2.1 [43] [13, 10] [] rfl,
   incomplete_triggers_retry_never_surfaces.2.2.1 [64] [],
   incomplete_triggers_retry_never_surfaces.2.2.2 [64] []
     "protocol error; invalid frame type byte" rfl⟩

/-- Refutation for C5: the claim says a flush failure is reported to the
caller, but `write_frame` discards the flush result
(`let _ = self.stream.flush().await;`, src/src/main.rs line 114): even
with a failing flush (`flushFails = true`), the call returns `Ok`. -/
theorem write_frame_flush_failure_not_reported :
    (Connection.writeFrame (Frame.Simple (strBytes "OK")) true).result =
      WriteResult.ok := rfl

/-- C5 (amended): the stream is flushed after the frame's bytes are
written on every path that returns `Ok`, and the flush's outcome never
changes the call's result — a flush failure is silently discarded, not
reported. -/
theorem write_frame_flushes_and_ignores_flush_result :
    (∀ frame ff1 ff2,
      Connection.writeFrame frame ff1 = Connection.writeFrame frame ff2) ∧
    (∀ frame ff, (Connection.writeFrame frame ff).result = .ok →
      (Connection.writeFrame frame ff).flushed = true) := by
  constructor
  · intro frame ff1 ff2
    cases frame <;> rfl
  · intro frame ff h
    cases frame with
    | Integer val =>
      cases hd : Connection.writeDecimal val <;>
        simp [Connection.writeFrame, hd] at h ⊢
    | Bulk val =>
      cases hd : Connection.writeDecimal val.length <;>
        simp [Connection.writeFrame, hd] at h ⊢
    | Array elems => simp [Connection.writeFrame] at h
    | Simple val => rfl
    | Error val => rfl
    | Null => rfl

/-- Witness for C5 (amended): a Simple frame write flushes and its outcome
is identical whether or not the flush fails. -/
theorem write_frame_flushes_and_ignores_flush_result_witness :
    Connection.writeFrame (Frame.Simple (strBytes "OK")) true =
      Connection.writeFrame (Frame.Simple (strBytes "OK")) false ∧
    (Connection.writeFrame (Frame.Simple (strBytes "OK")) true).flushed = true :=
  ⟨write_frame_flushes_and_ignores_flush_result.1 (Frame.Simple (strBytes "OK"))
      true false,
   write_frame_flushes_and_ignores_flush_result.2 (Frame.Simple (strBytes "OK"))
      true rfl⟩

/-- Refutation for C6: the claim says decoding the wire bytes `:-42\r\n`
yields `Integer(-42)`, but the Integer payload is a `u64`
(src/src/main.rs lines 95-97, 119) and the decimal parse rejects the `-`
byte, so decoding `:-42\r\n` is a protocol error — `Integer(-42)` does
not exist. -/
theorem integer_negative_wire_rejected :
    Frame.parse (strBytes ":-42\r\n") =
      .error (.Other "protocol error; invalid frame format") := rfl

/-- C6 (amended): the Integer frame variant carries an unsigned 64-bit
value; encoding `Integer(42)` produces the wire bytes `:42\r\n` and
decoding them yields `Integer(42)` again. -/
theorem integer_unsigned_roundtrip :
    (∀ ff, Connection.writeFrame (Frame.Integer 42) ff =
      ⟨strBytes ":42\r\n", true, .ok⟩) ∧
    Frame.parse (strBytes ":42\r\n") = .ok (Frame.Integer 42, []) :=
  ⟨fun ff => rfl, rfl⟩

/-- Witness for C6 (amended): the Integer 42 encoding at a concrete flush
flag. -/
theorem integer_unsigned_roundtrip_witness :
    Connection.writeFrame (Frame.Integer 42) true = ⟨strBytes ":42\r\n", true, .ok⟩ :=
  integer_unsigned_roundtrip.1 true

/-- C7: `write_frame` on an Array frame fails fast — it panics
(`unimplemented!`, src/src/main.rs line 111) before writing any byte to
the stream — while the decode path does support Array frames. -/
theorem write_frame_array_fails_fast :
    (∀ elems ff, Connection.writeFrame (Frame.Array elems) ff =
      ⟨[], false, .panicked⟩) ∧
    Frame.parse (strBytes "*1\r\n+OK\r\n") =
      .ok (Frame.Array [Frame.Simple (strBytes "OK")], []) :=
  ⟨fun elems ff => rfl, rfl⟩

/-- Witness for C7: the empty Array already panics with no bytes
emitted. -/
theorem write_frame_array_fails_fast_witness :
    Connection.writeFrame (Frame.Array []) false = ⟨[], false, .panicked⟩ :=
  write_frame_array_fails_fast.1 [] false

/-- Refutation for C8: `write_frame` does not emit the canonical encoding
for every Bulk frame — a Bulk payload whose length needs more than 12
decimal digits makes `write_decimal` fail, so the call returns an I/O
error after emitting only the `$` byte. -/
theorem write_frame_bulk_huge_not_canonical :
    Connection.writeFrame (Frame.Bulk (List.replicate (10 ^ 12) 0)) false =
      ⟨[36], false, .ioError⟩ :=
  writeFrame_bulk_overflow (List.replicate (10 ^ 12) 0) false
    (by rw [List.length_replicate])

/-- C8 (amended): `write_frame` emits exactly the canonical wire encoding
for Simple, Error and Null unconditionally, and for Bulk whenever the
payload length's decimal representation fits `write_decimal`'s 12-byte
scratch buffer. -/
theorem write_frame_canonical_encodings (s e b : List Nat) (ff : Bool)
    (hb : (natDecimal b.length).length ≤ 12) :
    Connection.writeFrame (Frame.Simple s) ff = ⟨43 :: (s ++ [13, 10]), true, .ok⟩ ∧
    Connection.writeFrame (Frame.Error s) ff = ⟨45 :: (s ++ [13, 10]), true, .ok⟩ ∧
    Connection.writeFrame Frame.Null ff = ⟨[36, 45, 49, 13, 10], true, .ok⟩ ∧
    Connection.writeFrame (Frame.Bulk b) ff =
      ⟨36 :: (natDecimal b.length ++ [13, 10] ++ b ++ [13, 10]), true, .ok⟩ := by
  refine ⟨rfl, rfl, rfl, ?_⟩
  simp only [Connection.writeFrame, Connection.writeDecimal, if_pos hb]

/-- Witness for C8 (amended): canonical encodings at concrete payloads,
including `$2\r\nhi\r\n` for a two-byte Bulk. -/
theorem write_frame_canonical_encodings_witness :
    Connection.writeFrame (Frame.Simple (strBytes "OK")) false =
      ⟨43 :: (strBytes "OK" ++ [13, 10]), true, .ok⟩ ∧
    Connection.writeFrame (Frame.Error (strBytes "OK")) false =
      ⟨45 :: (strBytes "OK" ++ [13, 10]), true, .ok⟩ ∧
    Connection.writeFrame Frame.Null false = ⟨[36, 45, 49, 13, 10], true, .ok⟩ ∧
    Connection.writeFrame (Frame.Bulk (strBytes "hi")) false =
      ⟨36 :: (natDecimal (strBytes "hi").length ++ [13, 10] ++ strBytes "hi"
        ++ [13, 10]), true, .ok⟩ :=
  write_frame_canonical_encodings (strBytes "OK") [] (strBytes "hi") false
    (by decide)

/-- C9: `write_decimal` formats into a fixed 12-byte scratch buffer, so
every value of `10 ^ 12` or more (13+ decimal digits) makes it fail, and
`write_frame` then returns an I/O error — for an `Integer` frame carrying
such a value and for a `Bulk` frame of such a length — instead of the
canonical encoding, although such values are representable in `Frame`. -/
theorem write_decimal_twelve_digit_limit (val : Nat) (h : 10 ^ 12 ≤ val) :
    Connection.writeDecimal val = .error () ∧
    (∀ ff, Connection.writeFrame (Frame.Integer val) ff = ⟨[58], false, .ioError⟩) ∧
    (∀ (b : List Nat) ff, b.length = val →
      Connection.writeFrame (Frame.Bulk b) ff = ⟨[36], false, .ioError⟩) := by
  have hwd := writeDecimal_overflow val h
  refine ⟨hwd, ?_, ?_⟩
  · intro ff
    simp [Connection.writeFrame, hwd]
  · intro b ff hb
    exact writeFrame_bulk_overflow b ff (hb ▸ h)

/-- Witness for C9: at exactly `10 ^ 12` the scratch buffer overflows. -/
theorem write_decimal_twelve_digit_limit_witness :
    Connection.writeDecimal (10 ^ 12) = .error () ∧
    Connection.writeFrame (Frame.Integer (10 ^ 12)) false =
      ⟨[58], false, .ioError⟩ :=
  ⟨(write_decimal_twelve_digit_limit (10 ^ 12) (le_refl _)).1,
   (write_decimal_twelve_digit_limit (10 ^ 12) (le_refl _)).2.1 false⟩

/-- C10: when `Frame::check` reports a non-Incomplete protocol error,
`parse_frame` returns that error and the accumulation buffer is left
completely unchanged — no bytes are consumed on the error path. -/
theorem parse_frame_error_leaves_buffer (buf : List Nat) (s : String)
    (h : Frame.check buf = .error (.Other s)) :
    Connection.parseFrame buf = (.error (.frame (.Other s)), buf) :=
  parseFrame_other_error buf s h

/-- Witness for C10: an invalid type byte errors with the buffer kept. -/
theorem parse_frame_error_leaves_buffer_witness :
    Connection.parseFrame [64] =
      (.error (.frame (.Other "protocol error; invalid frame type byte")), [64]) :=
  parse_frame_error_leaves_buffer [64]
    "protocol error; invalid frame type byte" rfl

end MyRedis
